import Mathlib

set_option maxHeartbeats 1000000

/-!
Shallow embedding of the vs-masktools mask engine
(src/vsmasks/abstract.py and src/vsmasktools/utils.py).

A video clip is modelled as its geometry plus a total pixel function
`pixel frame x y`; only the values at `frame < numFrames`, `x < width`,
`y < height` are meaningful.  Integer samples are `Nat`; `peak` is the
format's maximum representable sample (full-range integer formats).
External raster primitives (BlankClip, Crop, AddBorders, Loop, Invert,
Limiter, replace_ranges, insert_clip, MaskedMerge, depth) are embedded
from their documented semantics, since they live in the host runtime or
in vstools, outside this repository.
-/

/-- A raster stream: geometry, frame count, format peak value, and the pixel
function `pixel frame x y`. -/
structure VClip where
  width : Nat
  height : Nat
  numFrames : Nat
  peak : Nat
  pixel : Nat → Nat → Nat → Nat

/-- Whether an `Except` value is an error. -/
def exceptIsError {ε α : Type} : Except ε α → Bool
  | .error _ => true
  | .ok _ => false

/-- `clip[i]` in Python: the single-frame clip holding frame `i`. -/
def clipIndex (c : VClip) (i : Nat) : VClip :=
  { c with numFrames := 1, pixel := fun _ x y => c.pixel i x y }

/-- `clip.std.Loop(times)` (also Python `clip * times`): the clip repeated
`times` times. -/
def loopClip (c : VClip) (times : Nat) : VClip :=
  { c with numFrames := c.numFrames * times,
           pixel := fun n x y => c.pixel (n % c.numFrames) x y }

/-- `clip.std.Crop(left, right, top, bottom)`: remove the four margins. -/
def crop (c : VClip) (left right top bottom : Nat) : VClip :=
  { c with width := c.width - left - right, height := c.height - top - bottom,
           pixel := fun n x y => c.pixel n (x + left) (y + top) }

/-- `clip.std.AddBorders(left, right, top, bottom)` with the default border
color 0: pad the clip with zero-filled margins. -/
def addBorders (c : VClip) (left right top bottom : Nat) : VClip :=
  { c with width := c.width + left + right, height := c.height + top + bottom,
           pixel := fun n x y =>
             if left ≤ x ∧ x < left + c.width ∧ top ≤ y ∧ y < top + c.height then
               c.pixel n (x - left) (y - top)
             else 0 }

/-- `clip.std.Invert()`: bitwise sample inversion, `v ↦ maxval - v`
(for a full-range integer format, `maxval` is the peak). -/
def invertClip (c : VClip) : VClip :=
  { c with pixel := fun n x y => c.peak - c.pixel n x y }

/-- `ref.std.BlankClip(format=GRAY single plane)`: a zero-filled clip with
ref's dimensions, length and bit depth (single plane, no subsampling). -/
def blankLike (c : VClip) : VClip :=
  { c with pixel := fun _ _ _ => 0 }

/-- `hm.std.Limiter()`: clamp samples into the format's legal range,
`[0, peak]` for a full-range format. -/
def limiter (c : VClip) : VClip :=
  { c with pixel := fun n x y => min (c.pixel n x y) c.peak }

/-- `depth(mask, clip, range_out=FULL, range_in=FULL)` from vstools (external
bit-depth conversion): full-range sample values rescaled to clip's peak. -/
def depthTo (m c : VClip) : VClip :=
  { m with peak := c.peak, pixel := fun n x y => m.pixel n x y * c.peak / m.peak }

/-- `ExprOp.MAX.combine(a, b)`: elementwise maximum of two clips of matching
geometry; output format follows the first clip. -/
def maxCombine (a b : VClip) : VClip :=
  { a with pixel := fun n x y => max (a.pixel n x y) (b.pixel n x y) }

/-- A frame range, inclusive at both ends; `none` bounds are open
(start defaults to 0, end to the last index); negative values index from
the end, as in vstools. -/
def FrameRange : Type := Option Int × Option Int

/-- Whether frame `n` of a clip of length `len` lies in the inclusive range
`r` (vstools replace_ranges range semantics, an external collaborator). -/
def frameInRange (r : FrameRange) (n len : Nat) : Bool :=
  let s : Int := match r.1 with
    | Option.none => 0
    | some v => if v < 0 then (len : Int) + v else v
  let e : Int := match r.2 with
    | Option.none => (len : Int) - 1
    | some v => if v < 0 then (len : Int) + v else v
  decide (s ≤ (n : Int)) && decide ((n : Int) ≤ e)

/-- `replace_ranges(a, b, ran)` from vstools (external), for one range:
frames inside `ran` come from `b`, all other frames from `a`. -/
def replace_ranges (a b : VClip) (ran : FrameRange) : VClip :=
  { a with pixel := fun n x y =>
      if frameInRange ran n a.numFrames then b.pixel n x y else a.pixel n x y }

/-- `replace_ranges(a, b, ranges)` from vstools (external), for a list of
ranges: frames inside any listed range come from `b`. -/
def replace_ranges_many (a b : VClip) (rs : List FrameRange) : VClip :=
  { a with pixel := fun n x y =>
      if rs.any (fun r => frameInRange r n a.numFrames) then b.pixel n x y
      else a.pixel n x y }

/-- Modelled from the spec: masked merge (`clipa.std.MaskedMerge(clipb, mask)`,
a host-runtime primitive) — output is A with the B contribution blended in
proportion to M/peak. -/
def maskedMerge (a b m : VClip) : VClip :=
  { a with pixel := fun n x y =>
      ((a.pixel n x y : Int) +
        ((b.pixel n x y : Int) - (a.pixel n x y : Int)) * (m.pixel n x y : Int)
          / (m.peak : Int)).toNat }

/-- `insert_clip(clip, insert, start)` from vstools (external): substitute
`insert` into `clip` starting at frame `start`; fails when the inserted block
overruns the end of `clip`. -/
def insert_clip (c ins : VClip) (start : Nat) : Except String VClip :=
  if start + ins.numFrames > c.numFrames then
    .error "Inserted clip is too long!"
  else
    .ok { c with pixel := fun n x y =>
            if start ≤ n ∧ n < start + ins.numFrames then ins.pixel (n - start) x y
            else c.pixel n x y }

/-- The coordinate condition of `_get_region_expr` (utils.py lines 42-54):
after `right, bottom = right + 1, bottom + 1`, the RPN string tests
`X < left or X > width - right or Y < top or Y > height - bottom`
(true exactly on the margins, i.e. outside the retained region).  The
ternary `cond {replace} ?` applying the two replacement branches is inlined
at each call site, quoting the replace string built there. -/
def get_region_expr_cond (w h left right top bottom : Int) (x y : Nat) : Bool :=
  let right := right + 1
  let bottom := bottom + 1
  decide ((x : Int) < left) || decide ((x : Int) > w - right) ||
    decide ((y : Int) < top) || decide ((y : Int) > h - bottom)

/-- `region_rel_mask(clip, left, right, top, bottom)` (utils.py lines 57-61).
Fast path (`aka_expr_available`): evaluate `_get_region_expr(clip, left,
right, top, bottom, 0)`; the integer replace value 0 is formatted as
`'x 0'`, so the ternary yields the source pixel when the condition (outside)
holds and 0 otherwise.  Fallback path: `Crop` then `AddBorders` with the
same margins. -/
def region_rel_mask (c : VClip) (left right top bottom : Nat) (akaAvail : Bool) : VClip :=
  if akaAvail then
    { c with pixel := fun n x y =>
        if get_region_expr_cond c.width c.height left right top bottom x y then
          c.pixel n x y
        else 0 }
  else
    addBorders (crop c left right top bottom) left right top bottom

/-- The fast path of `squaremask` (utils.py lines 113-121): a zero blank
single-frame canvas of the mask format run through `_get_region_expr` with
replace `'range_max x'` when inverted and `'x range_max'` otherwise, so the
ternary yields, on the outside branch, the canvas pixel (0) for the plain
mask and the peak for the inverted one. -/
def squaremaskExprFrame (c : VClip) (width height offsetX offsetY : Nat)
    (invert : Bool) : VClip :=
  { width := c.width, height := c.height, numFrames := 1, peak := c.peak,
    pixel := fun _ x y =>
      let cond := get_region_expr_cond c.width c.height
        (offsetX : Int) ((c.width : Int) - width - offsetX)
        (offsetY : Int) ((c.height : Int) - height - offsetY) x y
      let basePixel : Nat := 0
      if invert then (if cond then c.peak else basePixel)
      else (if cond then basePixel else c.peak) }

/-- The fallback path of `squaremask` (utils.py lines 122-129): a peak-filled
`width`×`height` blank frame padded with zero borders to the clip's
dimensions, then `std.Invert` when inverted. -/
def squaremaskFallFrame (c : VClip) (width height offsetX offsetY : Nat)
    (invert : Bool) : VClip :=
  let base : VClip :=
    { width := width, height := height, numFrames := 1, peak := c.peak,
      pixel := fun _ _ _ => c.peak }
  let m := addBorders base offsetX (c.width - width - offsetX)
    offsetY (c.height - height - offsetY)
  if invert then invertClip m else m

/-- `squaremask(clip, width, height, offset_x, offset_y, invert)` (utils.py
lines 82-134).  Size check first; then the fast (expression) or fallback
single-frame mask; the single mask frame is looped to the clip's length when
the clip has more than one frame. -/
def squaremask (c : VClip) (width height offsetX offsetY : Nat)
    (invert : Bool) (akaAvail : Bool) : Except String VClip :=
  if offsetX + width > c.width ∨ offsetY + height > c.height then
    .error "mask exceeds clip size!"
  else
    let mask : VClip :=
      if akaAvail then squaremaskExprFrame c width height offsetX offsetY invert
      else squaremaskFallFrame c width height offsetX offsetY invert
    if c.numFrames == 1 then .ok mask else .ok (loopClip mask c.numFrames)

/-- The `blur_sigma` argument of `replace_squaremask`: `None`, an `int`
(box blur) or a `float` (Gaussian blur); the sigma value itself is only
passed on to the external blur filter, which is supplied as a function. -/
inductive BlurArg where
  | unset : BlurArg
  | intSigma : BlurArg
  | floatSigma : BlurArg

/-- `replace_squaremask(clipa, clipb, mask_params, ranges, blur_sigma,
invert, show_mask)` (utils.py lines 137-187): build `squaremask(clipb[0],
*mask_params, invert)`, default `ranges` to `[(None, None)]`, blur by type of
`blur_sigma` (box for int, Gaussian for float), loop the mask to clipa's
length; return the mask when `show_mask`, else clipa masked-merged with
clipb restricted to `ranges`.  The external blur filters are supplied as
functions with the sigma pre-applied. -/
def replace_squaremask (clipa clipb : VClip) (p : Nat × Nat × Nat × Nat)
    (ranges : Option (List FrameRange)) (blurSigma : BlurArg) (invert : Bool)
    (showMask : Bool) (akaAvail : Bool) (boxBlurF gaussBlurF : VClip → VClip) :
    Except String VClip :=
  (squaremask (clipIndex clipb 0) p.1 p.2.1 p.2.2.1 p.2.2.2 invert akaAvail).bind
    fun mask =>
      let ranges : List FrameRange := match ranges with
        | Option.none => [(Option.none, Option.none)]
        | some rs => rs
      let mask : VClip := match blurSigma with
        | .intSigma => boxBlurF mask
        | .floatSigma => gaussBlurF mask
        | .unset => mask
      let mask := loopClip mask clipa.numFrames
      if showMask then .ok mask
      else .ok (replace_ranges_many clipa (maskedMerge clipa clipb mask) ranges)

/-- `freeze_replace_squaremask(mask, insert, mask_params, frame,
(start, end))` (utils.py lines 190-198): run `replace_squaremask` on the
single frame pair `mask[frame], insert[frame]` with default options, repeat
the result `end - start + 1` times and insert the block at `start`. -/
def freeze_replace_squaremask (mask insert : VClip) (p : Nat × Nat × Nat × Nat)
    (frame : Nat) (frameRange : Nat × Nat) (akaAvail : Bool)
    (boxBlurF gaussBlurF : VClip → VClip) : Except String VClip :=
  (replace_squaremask (clipIndex mask frame) (clipIndex insert frame) p
      Option.none BlurArg.unset false false akaAvail boxBlurF gaussBlurF).bind
    fun maskedInsert =>
      insert_clip mask (loopClip maskedInsert (frameRange.2 - frameRange.1 + 1))
        frameRange.1

/-- `BoundingBox` (abstract.py lines 26-35): immutable position, size and
invert flag (nonnegative geometry). -/
structure BoundingBox where
  pos : Nat × Nat
  size : Nat × Nat
  invert : Bool

/-- `BoundingBox.get_mask(ref)`:
`squaremask(ref, size.x, size.y, pos.x, pos.y, invert)`. -/
def BoundingBox.get_mask (bb : BoundingBox) (ref : VClip) (akaAvail : Bool) :
    Except String VClip :=
  squaremask ref bb.size.1 bb.size.2 bb.pos.1 bb.pos.2 bb.invert akaAvail

/-- The `ranges` argument of `DeferredMask.__init__`: `None`, a single range,
or a list of ranges. -/
inductive RangesArg where
  | unset : RangesArg
  | single : FrameRange → RangesArg
  | list : List FrameRange → RangesArg

/-- The `refframes` argument of `DeferredMask.__init__`: `None`, a single
integer, or a list of optional integers. -/
inductive RefFramesArg where
  | unset : RefFramesArg
  | scalar : Int → RefFramesArg
  | list : List (Option Int) → RefFramesArg

/-- `normalize_seq(val, length)` from vstools (external): broadcast a
non-sequence value into a list of the requested length. -/
def normalize_seq (v : Option Int) (length : Nat) : List (Option Int) :=
  List.replicate length v

/-- The `DeferredMask` configuration value (abstract.py lines 38-42):
normalized ranges, optional bounding box, reference-frame indices, blur
flag. -/
structure DeferredMask where
  ranges : List FrameRange
  bound : Option BoundingBox
  blur : Bool
  refframes : List (Option Int)

/-- `DeferredMask.__init__(ranges, bound, blur, refframes)` (abstract.py
lines 44-60): normalize `ranges` (`None` becomes `[(0, None)]`, a single
range becomes a one-element list); `refframes` `None` becomes `[]`, a
scalar is broadcast with `normalize_seq` to the length of the range list,
a list is taken as is; fail when the resulting reference-frame list is
non-empty and its length differs from the range list's. -/
def DeferredMask.init (ranges : RangesArg) (bound : Option BoundingBox)
    (blur : Bool) (refframes : RefFramesArg) : Except String DeferredMask :=
  let rs : List FrameRange := match ranges with
    | .list l => l
    | .unset => [((some 0 : Option Int), (Option.none : Option Int))]
    | .single r => [r]
  let rfs : List (Option Int) := match refframes with
    | .unset => []
    | .scalar n => normalize_seq (some n) rs.length
    | .list l => l
  if rfs.length > 0 ∧ rfs.length ≠ rs.length then
    .error "Received reference frame and range list size mismatch!"
  else
    .ok { ranges := rs, bound := bound, blur := blur, refframes := rfs }

/-- The bound gating of `DeferredMask.get_mask` (abstract.py line 96):
`norm_expr([hm, bm], 'y clamp(0, peak, x) 0 ?')` — where the bounding mask
is nonzero, the assembled value clamped into `[0, peak]` (peak of `hm`;
samples are nonnegative naturals, so the clamp is `min`), else 0. -/
def gateClamp (hm bm : VClip) : VClip :=
  { hm with pixel := fun n x y =>
      if bm.pixel n x y > 0 then min (hm.pixel n x y) hm.peak else 0 }

/-- `DeferredMask.get_mask(clip, ref)` (abstract.py lines 62-98).  The
abstract `_mask` strategy and the external `box_blur(bm, 5, 5)` are supplied
as functions.  When the reference-frame list is empty: start from a
zero-filled single-plane blank with ref's geometry and length, then fold
over `zip(self.ranges, self.refframes)`, resolving each reference index
(`None` means the last frame, negative indexes from the end), running the
strategy on the single frame pair, converting depth full-to-full, looping to
the accumulator's length and max-combining within the range.  Otherwise run
the strategy over the whole streams and convert depth.  Finally gate by the
bounding mask (after the optional 5×5 box blur) when a bound is set, else
limit into the legal range. -/
def DeferredMask.get_mask (dm : DeferredMask) (maskFn : VClip → VClip → VClip)
    (boxBlurF : VClip → VClip) (akaAvail : Bool) (clip ref : VClip) :
    Except String VClip :=
  let hm : VClip :=
    if dm.refframes.length == 0 then
      (dm.ranges.zip dm.refframes).foldl
        (fun hm pr =>
          let rf : Int := match pr.2 with
            | Option.none => (ref.numFrames : Int) - 1
            | some r => if r < 0 then (ref.numFrames : Int) - 1 + r else r
          let mask := loopClip
            (depthTo (maskFn (clipIndex clip rf.toNat) (clipIndex ref rf.toNat)) clip)
            hm.numFrames
          replace_ranges hm (maxCombine hm mask) pr.1)
        (blankLike ref)
    else
      depthTo (maskFn clip ref) clip
  match dm.bound with
  | some bb =>
      (bb.get_mask ref akaAvail).map fun bm0 =>
        let bm := if dm.blur then boxBlurF bm0 else bm0
        gateClamp hm bm
  | Option.none => .ok (limiter hm)

/-- An edge/ridge detector instance (external `EdgeDetect`/`RidgeDetect`
from the edge module, outside src): its edge-mask algorithm, whether it is a
ridge detector, and its ridge-mask algorithm. -/
structure EdgeDetectM where
  edgemask : VClip → VClip
  isRidge : Bool
  ridgemask : VClip → VClip

/-- A value the resolver can be handed after name lookup and type
instantiation: a detector instance, a `Mask`-capability value (modelled from
the spec: `GeneralMask` exposing `get_mask(target, ref?)`, a class of this
repository outside src), a callable, or an already-concrete clip. -/
inductive MaskVal where
  | edge : EdgeDetectM → MaskVal
  | general : (VClip → Option VClip → VClip) → MaskVal
  | func : (VClip → VClip → VClip) → MaskVal
  | clipVal : VClip → MaskVal

/-- A `GenericMaskT` source value: a registered detector name, or a value.
Type descriptors (`isinstance(mask, type)`) instantiate with defaults and
then flow as instances, which the `MaskVal` constructors already denote. -/
inductive MaskSource where
  | name : String → MaskSource
  | val : MaskVal → MaskSource

/-- `normalize_mask(mask, clip, ref, ridge)` (utils.py lines 201-226).  The
detector registry (`EdgeDetect.ensure_obj`, external) is supplied as a
function.  A name resolves through the registry; a ridge detector with
`ridge` set produces its ridge mask, any remaining edge detector its edge
mask; a `Mask` value calls `get_mask(clip, ref)`; a callable requires `ref`
and is invoked as `mask(clip, ref)`; the result is depth-converted to the
target's format.  (The `.edge` case of the final match is unreachable: the
second step already turned every detector into a clip.) -/
def normalize_mask (registry : String → EdgeDetectM) (mask : MaskSource)
    (clip : VClip) (ref : Option VClip) (ridge : Bool) : Except String VClip :=
  let m1 : MaskVal := match mask with
    | .name s => .edge (registry s)
    | .val v => v
  let m2 : MaskVal := match m1 with
    | .edge e => .clipVal (if e.isRidge && ridge then e.ridgemask clip else e.edgemask clip)
    | x => x
  let m3 : MaskVal := match m2 with
    | .general g => .clipVal (g clip ref)
    | x => x
  match m3 with
  | .func f =>
      match ref with
      | Option.none => .error "This mask function requires a ref to be specified!"
      | some r => .ok (depthTo (f clip r) clip)
  | .clipVal c => .ok (depthTo c clip)
  | .edge e => .ok (depthTo (e.edgemask clip) clip)
  | .general g => .ok (depthTo (g clip ref) clip)


/-! ## Concrete inputs for closed theorems and witnesses -/

/-- A 1×1 single-frame full-range 8-bit clip with constant pixel value 7. -/
def clip7 : VClip :=
  { width := 1, height := 1, numFrames := 1, peak := 255, pixel := fun _ _ _ => 7 }

/-- A 4×4 two-frame full-range 8-bit clip of zeros. -/
def clip4x4 : VClip :=
  { width := 4, height := 4, numFrames := 2, peak := 255, pixel := fun _ _ _ => 0 }

/-- A 1×1 single-frame full-range 8-bit clip of zeros. -/
def zeroClip1 : VClip :=
  { width := 1, height := 1, numFrames := 1, peak := 255, pixel := fun _ _ _ => 0 }

/-- A per-pixel strategy producing a constant all-255 single-frame mask. -/
def constMask255 : VClip → VClip → VClip :=
  fun _ _ =>
    { width := 1, height := 1, numFrames := 1, peak := 255, pixel := fun _ _ _ => 255 }

/-! ## Helper lemmas -/

/-- The expression-path single mask frame is peak inside the rectangle and 0
outside, swapped when inverted. -/
theorem squaremaskExprFrame_pixel (c : VClip) (w h ox oy : Nat) (inv : Bool)
    (n x y : Nat) :
    (squaremaskExprFrame c w h ox oy inv).pixel n x y
      = if ox ≤ x ∧ x < ox + w ∧ oy ≤ y ∧ y < oy + h
          then (if inv then 0 else c.peak) else (if inv then c.peak else 0) := by
  have hcond : (get_region_expr_cond c.width c.height (ox : Int)
      ((c.width : Int) - w - ox) (oy : Int) ((c.height : Int) - h - oy) x y = true)
      ↔ ¬(ox ≤ x ∧ x < ox + w ∧ oy ≤ y ∧ y < oy + h) := by
    simp only [get_region_expr_cond, Bool.or_eq_true, decide_eq_true_eq]
    omega
  show (if inv
        then (if get_region_expr_cond c.width c.height (ox : Int)
            ((c.width : Int) - w - ox) (oy : Int) ((c.height : Int) - h - oy) x y
          then c.peak else 0)
        else (if get_region_expr_cond c.width c.height (ox : Int)
            ((c.width : Int) - w - ox) (oy : Int) ((c.height : Int) - h - oy) x y
          then 0 else c.peak)) = _
  by_cases hin : ox ≤ x ∧ x < ox + w ∧ oy ≤ y ∧ y < oy + h
  · have hc : get_region_expr_cond c.width c.height (ox : Int)
        ((c.width : Int) - w - ox) (oy : Int) ((c.height : Int) - h - oy) x y = false := by
      cases hv : get_region_expr_cond c.width c.height (ox : Int)
          ((c.width : Int) - w - ox) (oy : Int) ((c.height : Int) - h - oy) x y
      · rfl
      · exact absurd hin (hcond.mp hv)
    rw [hc, if_pos hin]
    cases inv <;> rfl
  · have hc : get_region_expr_cond c.width c.height (ox : Int)
        ((c.width : Int) - w - ox) (oy : Int) ((c.height : Int) - h - oy) x y = true :=
      hcond.mpr hin
    rw [hc, if_neg hin]
    cases inv <;> rfl

/-- The fallback-path single mask frame is peak inside the rectangle and 0
outside, swapped when inverted. -/
theorem squaremaskFallFrame_pixel (c : VClip) (w h ox oy : Nat) (inv : Bool)
    (n x y : Nat) :
    (squaremaskFallFrame c w h ox oy inv).pixel n x y
      = if ox ≤ x ∧ x < ox + w ∧ oy ≤ y ∧ y < oy + h
          then (if inv then 0 else c.peak) else (if inv then c.peak else 0) := by
  cases inv with
  | false =>
    show (if ox ≤ x ∧ x < ox + w ∧ oy ≤ y ∧ y < oy + h then c.peak else 0) = _
    by_cases hin : ox ≤ x ∧ x < ox + w ∧ oy ≤ y ∧ y < oy + h
    · rw [if_pos hin, if_pos hin]
      rfl
    · rw [if_neg hin, if_neg hin]
      rfl
  | true =>
    show c.peak - (if ox ≤ x ∧ x < ox + w ∧ oy ≤ y ∧ y < oy + h then c.peak else 0) = _
    by_cases hin : ox ≤ x ∧ x < ox + w ∧ oy ≤ y ∧ y < oy + h
    · rw [if_pos hin, if_pos hin, Nat.sub_self]
      rfl
    · rw [if_neg hin, if_neg hin, Nat.sub_zero]
      rfl

/-- On a successful size check, `squaremask` returns a mask with the clip's
length and peak whose pixels are peak inside the rectangle and 0 outside
(swapped when inverted), on either execution path. -/
theorem squaremask_ok (c : VClip) (w h ox oy : Nat) (inv aka : Bool)
    (h1 : ox + w ≤ c.width) (h2 : oy + h ≤ c.height) :
    ∃ m, squaremask c w h ox oy inv aka = .ok m
      ∧ m.numFrames = c.numFrames
      ∧ m.peak = c.peak
      ∧ ∀ n x y : Nat,
          m.pixel n x y = if ox ≤ x ∧ x < ox + w ∧ oy ≤ y ∧ y < oy + h
            then (if inv then 0 else c.peak) else (if inv then c.peak else 0) := by
  have hguard : ¬(ox + w > c.width ∨ oy + h > c.height) := by omega
  cases aka with
  | true =>
    cases hb : (c.numFrames == 1) with
    | true =>
      refine ⟨squaremaskExprFrame c w h ox oy inv, ?_, ?_, rfl, ?_⟩
      · unfold squaremask
        rw [if_neg hguard, hb]
        rfl
      · have hb' : c.numFrames = 1 := by simpa using hb
        show (1 : Nat) = c.numFrames
        omega
      · exact fun n x y => squaremaskExprFrame_pixel c w h ox oy inv n x y
    | false =>
      refine ⟨loopClip (squaremaskExprFrame c w h ox oy inv) c.numFrames, ?_, ?_, rfl, ?_⟩
      · unfold squaremask
        rw [if_neg hguard, hb]
        rfl
      · exact Nat.one_mul c.numFrames
      · exact fun n x y => squaremaskExprFrame_pixel c w h ox oy inv
          (n % (squaremaskExprFrame c w h ox oy inv).numFrames) x y
  | false =>
    cases hb : (c.numFrames == 1) with
    | true =>
      refine ⟨squaremaskFallFrame c w h ox oy inv, ?_, ?_, ?_, ?_⟩
      · unfold squaremask
        rw [if_neg hguard, hb]
        rfl
      · have hb' : c.numFrames = 1 := by simpa using hb
        cases inv <;> (show (1 : Nat) = c.numFrames; omega)
      · cases inv <;> rfl
      · exact fun n x y => squaremaskFallFrame_pixel c w h ox oy inv n x y
    | false =>
      refine ⟨loopClip (squaremaskFallFrame c w h ox oy inv) c.numFrames, ?_, ?_, ?_, ?_⟩
      · unfold squaremask
        rw [if_neg hguard, hb]
        rfl
      · cases inv <;> exact Nat.one_mul c.numFrames
      · cases inv <;> rfl
      · intro n x y
        exact squaremaskFallFrame_pixel c w h ox oy inv
          (n % (squaremaskFallFrame c w h ox oy inv).numFrames) x y

/-! ## Claim theorems -/

/-- Claim C2: the claim states that region_rel_mask(stream, 0, 0, 0, 0)
returns the input unchanged on both the expression fast path and the
crop-plus-pad fallback path.  The code refutes it on the expression path:
the integer replace value 0 is formatted as 'x 0', which puts the
pass-through pixel on the outside branch, and with zero margins the outside
condition never holds, so every pixel becomes 0; the fallback path does
return the input unchanged. -/
theorem region_rel_mask_zero_margins_not_identity :
    (region_rel_mask clip7 0 0 0 0 true).pixel 0 0 0 = 0
    ∧ (region_rel_mask clip7 0 0 0 0 false).pixel 0 0 0 = clip7.pixel 0 0 0
    ∧ clip7.pixel 0 0 0 = 7 :=
  ⟨rfl, rfl, rfl⟩

/-- Claim C3: for every stream and rectangle with offsetX+width ≤ streamWidth
and offsetY+height ≤ streamHeight, every squaremask output pixel at (x, y)
equals the format's peak value iff offsetX ≤ x < offsetX+width and
offsetY ≤ y < offsetY+height and equals 0 otherwise; with invert the two
output values are swapped — on both execution paths. -/
theorem squaremask_pixel_spec (c : VClip) (w h ox oy : Nat) (invert aka : Bool)
    (hx : ox + w ≤ c.width) (hy : oy + h ≤ c.height)
    (n x y : Nat) (hxw : x < c.width) (hyh : y < c.height) :
    ∃ m, squaremask c w h ox oy invert aka = .ok m
      ∧ m.pixel n x y = if ox ≤ x ∧ x < ox + w ∧ oy ≤ y ∧ y < oy + h
          then (if invert then 0 else c.peak) else (if invert then c.peak else 0) := by
  obtain ⟨m, hm, _, _, hp⟩ := squaremask_ok c w h ox oy invert aka hx hy
  exact ⟨m, hm, hp n x y⟩

/-- Witness for squaremask_pixel_spec at a concrete clip and rectangle. -/
theorem squaremask_pixel_spec_witness :
    (1 + 2 ≤ clip4x4.width ∧ 1 + 2 ≤ clip4x4.height
      ∧ 2 < clip4x4.width ∧ 1 < clip4x4.height)
    ∧ (∃ m, squaremask clip4x4 2 2 1 1 false true = .ok m
        ∧ m.pixel 0 2 1 = if 1 ≤ 2 ∧ 2 < 1 + 2 ∧ 1 ≤ 1 ∧ 1 < 1 + 2
            then (if false then 0 else clip4x4.peak)
            else (if false then clip4x4.peak else 0)) :=
  ⟨by decide,
    squaremask_pixel_spec clip4x4 2 2 1 1 false true (by decide) (by decide)
      0 2 1 (by decide) (by decide)⟩

/-- Claim C4: squaremask fails with the size error iff
offsetX+width > streamWidth or offsetY+height > streamHeight; the check is
the first step, before any mask frame is constructed. -/
theorem squaremask_size_error_iff (c : VClip) (w h ox oy : Nat) (inv aka : Bool) :
    exceptIsError (squaremask c w h ox oy inv aka) = true
      ↔ (ox + w > c.width ∨ oy + h > c.height) := by
  unfold squaremask
  split
  · next hcond =>
      constructor
      · intro _
        exact hcond
      · intro _
        rfl
  · next hcond =>
      constructor
      · intro hE
        cases hb : (c.numFrames == 1) <;> rw [hb] at hE <;>
          simp [exceptIsError] at hE
      · intro hc
        exact absurd hc hcond

/-- Claim C5: DeferredMask construction with a ranges list and a
reference-frame list passed as a list fails with the length-mismatch error
iff the reference-frame list is non-empty and its length differs from the
range list's length. -/
theorem deferredMask_init_list_mismatch_iff (rs : List FrameRange)
    (bound : Option BoundingBox) (blur : Bool) (rfs : List (Option Int)) :
    exceptIsError (DeferredMask.init (RangesArg.list rs) bound blur
        (RefFramesArg.list rfs)) = true
      ↔ (rfs ≠ [] ∧ rfs.length ≠ rs.length) := by
  simp only [DeferredMask.init]
  split
  · next hcond =>
      constructor
      · intro _
        exact ⟨List.length_pos.mp hcond.1, hcond.2⟩
      · intro _
        rfl
  · next hcond =>
      constructor
      · intro hE
        simp [exceptIsError] at hE
      · intro hc
        exact absurd ⟨List.length_pos.mpr hc.1, hc.2⟩ hcond

/-- Claim C9: DeferredMask construction with a single integer (non-list)
refframes argument never raises the length-mismatch error: the scalar is
broadcast into a reference-frame list whose length equals the range list's
length, one copy per range. -/
theorem deferredMask_init_scalar_broadcast (rs : List FrameRange)
    (bound : Option BoundingBox) (blur : Bool) (k : Int) :
    DeferredMask.init (RangesArg.list rs) bound blur (RefFramesArg.scalar k)
      = .ok { ranges := rs, bound := bound, blur := blur,
              refframes := List.replicate rs.length (some k) } := by
  simp only [DeferredMask.init, normalize_seq]
  split
  · next hcond =>
      rw [List.length_replicate] at hcond
      exact absurd rfl hcond.2
  · rfl

/-- Claim C1: the claim states that with an empty refframes list and a
non-empty ranges list, get_mask accumulates one mask per (range, refIndex)
pair.  The code refutes it: the accumulation loop iterates over
zip(self.ranges, self.refframes) inside the branch where self.refframes is
empty, so the zip is empty, no iteration runs, and the returned mask is the
zero blank accumulator even though the per-pixel algorithm produces a
nonzero (255) mask frame on the pair target[refIndex], ref[refIndex]. -/
theorem deferredMask_empty_refframes_accumulates_nothing :
    DeferredMask.init (RangesArg.list [((some 0 : Option Int), (some 0 : Option Int))])
        Option.none false RefFramesArg.unset
      = .ok { ranges := [((some 0 : Option Int), (some 0 : Option Int))],
              bound := Option.none, blur := false, refframes := [] }
    ∧ (DeferredMask.get_mask
          { ranges := [((some 0 : Option Int), (some 0 : Option Int))],
            bound := Option.none, blur := false, refframes := [] }
          constMask255 id true zeroClip1 zeroClip1).map (fun m => m.pixel 0 0 0)
        = Except.ok 0
    ∧ (constMask255 (clipIndex zeroClip1 0) (clipIndex zeroClip1 0)).pixel 0 0 0 = 255 :=
  ⟨rfl, rfl, rfl⟩

/-- Claim C6: for every pair of disjoint frame ranges r1 and r2 and every
fixed per-pixel strategy (and any other fixed configuration), get_mask
produces an identical result whether the ranges list is [r1, r2] or
[r2, r1]. -/
theorem deferredMask_disjoint_ranges_order_irrelevant
    (bound : Option BoundingBox) (blur : Bool) (refframes : List (Option Int))
    (maskFn : VClip → VClip → VClip) (boxBlurF : VClip → VClip) (aka : Bool)
    (clip ref : VClip) (r1 r2 : FrameRange)
    (hdisj : ∀ n len : Nat,
      ¬(frameInRange r1 n len = true ∧ frameInRange r2 n len = true)) :
    DeferredMask.get_mask
        { ranges := [r1, r2], bound := bound, blur := blur, refframes := refframes }
        maskFn boxBlurF aka clip ref
      = DeferredMask.get_mask
          { ranges := [r2, r1], bound := bound, blur := blur, refframes := refframes }
          maskFn boxBlurF aka clip ref := by
  cases refframes <;> rfl

/-- Witness for deferredMask_disjoint_ranges_order_irrelevant on the
disjoint ranges [0, 1] and [2, 3]. -/
theorem deferredMask_disjoint_ranges_order_irrelevant_witness :
    (∀ n len : Nat,
      ¬(frameInRange ((some 0 : Option Int), (some 1 : Option Int)) n len = true
        ∧ frameInRange ((some 2 : Option Int), (some 3 : Option Int)) n len = true))
    ∧ DeferredMask.get_mask
        { ranges := [((some 0 : Option Int), (some 1 : Option Int)),
                     ((some 2 : Option Int), (some 3 : Option Int))],
          bound := Option.none, blur := false, refframes := [] }
        constMask255 id true zeroClip1 zeroClip1
      = DeferredMask.get_mask
          { ranges := [((some 2 : Option Int), (some 3 : Option Int)),
                       ((some 0 : Option Int), (some 1 : Option Int))],
            bound := Option.none, blur := false, refframes := [] }
          constMask255 id true zeroClip1 zeroClip1 := by
  have hdisj : ∀ n len : Nat,
      ¬(frameInRange ((some 0 : Option Int), (some 1 : Option Int)) n len = true
        ∧ frameInRange ((some 2 : Option Int), (some 3 : Option Int)) n len = true) := by
    intro n len h
    simp only [frameInRange, Bool.and_eq_true, decide_eq_true_eq] at h
    omega
  exact ⟨hdisj, deferredMask_disjoint_ranges_order_irrelevant Option.none false []
    constMask255 id true zeroClip1 zeroClip1 _ _ hdisj⟩

/-- On a successful size check, `replace_squaremask` without show_mask
succeeds and returns a clip of clipa's length. -/
theorem replace_squaremask_ok (clipa clipb : VClip) (w h ox oy : Nat)
    (ranges : Option (List FrameRange)) (blurSigma : BlurArg) (invert aka : Bool)
    (bf gf : VClip → VClip)
    (h1 : ox + w ≤ clipb.width) (h2 : oy + h ≤ clipb.height) :
    ∃ m, replace_squaremask clipa clipb (w, h, ox, oy) ranges blurSigma invert
        false aka bf gf = .ok m
      ∧ m.numFrames = clipa.numFrames := by
  obtain ⟨sq, hsq, _, _, _⟩ :=
    squaremask_ok (clipIndex clipb 0) w h ox oy invert aka h1 h2
  have hsq' : squaremask (clipIndex clipb 0) (w, h, ox, oy).1 (w, h, ox, oy).2.1
      (w, h, ox, oy).2.2.1 (w, h, ox, oy).2.2.2 invert aka = .ok sq := hsq
  unfold replace_squaremask
  rw [hsq']
  exact ⟨_, rfl, rfl⟩

/-- Claim C7: freeze_replace_squaremask computes replace_squaremask on
exactly the single frame pair (mask[frame], insert[frame]), replicates the
resulting single frame end−start+1 times, and substitutes that block into
the mask stream starting at index start, leaving all other frames of the
mask stream unchanged. -/
theorem freeze_replace_squaremask_spec (mask insert : VClip)
    (w h ox oy frame start stop : Nat) (aka : Bool) (bf gf : VClip → VClip)
    (h1 : ox + w ≤ insert.width) (h2 : oy + h ≤ insert.height)
    (hse : start ≤ stop) (hend : stop < mask.numFrames) :
    ∃ mi out,
      replace_squaremask (clipIndex mask frame) (clipIndex insert frame)
          (w, h, ox, oy) Option.none BlurArg.unset false false aka bf gf = .ok mi
      ∧ freeze_replace_squaremask mask insert (w, h, ox, oy) frame (start, stop)
          aka bf gf = .ok out
      ∧ out.numFrames = mask.numFrames
      ∧ ∀ n x y : Nat, out.pixel n x y =
          if start ≤ n ∧ n ≤ stop then mi.pixel 0 x y else mask.pixel n x y := by
  obtain ⟨mi, hmi, hnum⟩ :=
    replace_squaremask_ok (clipIndex mask frame) (clipIndex insert frame)
      w h ox oy Option.none BlurArg.unset false aka bf gf h1 h2
  have hnum1 : mi.numFrames = 1 := hnum
  have hloopN : (loopClip mi (stop - start + 1)).numFrames = stop - start + 1 := by
    show mi.numFrames * (stop - start + 1) = stop - start + 1
    rw [hnum1, Nat.one_mul]
  refine ⟨mi, ?_⟩
  rw [show freeze_replace_squaremask mask insert (w, h, ox, oy) frame (start, stop)
        aka bf gf
      = insert_clip mask (loopClip mi (stop - start + 1)) start from by
    unfold freeze_replace_squaremask
    rw [hmi]
    rfl]
  unfold insert_clip
  rw [hloopN]
  rw [if_neg (show ¬(start + (stop - start + 1) > mask.numFrames) by omega)]
  refine ⟨_, hmi, rfl, rfl, ?_⟩
  intro n x y
  show (if start ≤ n ∧ n < start + (stop - start + 1)
      then (loopClip mi (stop - start + 1)).pixel (n - start) x y
      else mask.pixel n x y) = _
  have hpix : (loopClip mi (stop - start + 1)).pixel (n - start) x y
      = mi.pixel 0 x y := by
    show mi.pixel ((n - start) % mi.numFrames) x y = mi.pixel 0 x y
    rw [hnum1, Nat.mod_one]
  by_cases hc : start ≤ n ∧ n ≤ stop
  · rw [if_pos (show start ≤ n ∧ n < start + (stop - start + 1) by omega),
      if_pos hc, hpix]
  · rw [if_neg (show ¬(start ≤ n ∧ n < start + (stop - start + 1)) by omega),
      if_neg hc]

/-- Witness for freeze_replace_squaremask_spec at concrete clips. -/
theorem freeze_replace_squaremask_spec_witness :
    (0 + 1 ≤ clip4x4.width ∧ 0 + 1 ≤ clip4x4.height ∧ 1 ≤ 1 ∧ 1 < clip4x4.numFrames)
    ∧ (∃ mi out,
        replace_squaremask (clipIndex clip4x4 0) (clipIndex clip4x4 0)
            (1, 1, 0, 0) Option.none BlurArg.unset false false true id id = .ok mi
        ∧ freeze_replace_squaremask clip4x4 clip4x4 (1, 1, 0, 0) 0 (1, 1)
            true id id = .ok out
        ∧ out.numFrames = clip4x4.numFrames
        ∧ ∀ n x y : Nat, out.pixel n x y =
            if 1 ≤ n ∧ n ≤ 1 then mi.pixel 0 x y else clip4x4.pixel n x y) :=
  ⟨by decide,
    freeze_replace_squaremask_spec clip4x4 clip4x4 1 1 0 0 0 1 1 true id id
      (by decide) (by decide) (by decide) (by decide)⟩

/-- Claim C10: replace_squaremask with show_mask set returns the same stream
for every value of the ranges argument: the returned mask is built from B's
first frame and looped to A's length, independent of ranges. -/
theorem replace_squaremask_show_mask_ranges_irrelevant
    (clipa clipb : VClip) (p : Nat × Nat × Nat × Nat) (blurSigma : BlurArg)
    (invert aka : Bool) (bf gf : VClip → VClip)
    (r1 r2 : Option (List FrameRange)) :
    replace_squaremask clipa clipb p r1 blurSigma invert true aka bf gf
      = replace_squaremask clipa clipb p r2 blurSigma invert true aka bf gf := by
  unfold replace_squaremask
  rfl

/-- Claim C8: normalize_mask with a callable mask source fails with the
missing-reference error when no reference stream is given, and with a
reference stream present invokes the callable with (target, ref), converting
the result to the target's depth. -/
theorem normalize_mask_callable_spec :
    (∀ (registry : String → EdgeDetectM) (f : VClip → VClip → VClip)
        (clip : VClip) (ridge : Bool),
      exceptIsError (normalize_mask registry (MaskSource.val (MaskVal.func f))
          clip Option.none ridge) = true)
    ∧ (∀ (registry : String → EdgeDetectM) (f : VClip → VClip → VClip)
        (clip ref : VClip) (ridge : Bool),
      normalize_mask registry (MaskSource.val (MaskVal.func f)) clip (some ref) ridge
        = .ok (depthTo (f clip ref) clip)) :=
  ⟨fun _ _ _ _ => rfl, fun _ _ _ _ _ => rfl⟩
